import Mathlib

/-!
Tooltip activator: a verification development for `static/js/app.js`.

The script registers one listener on `document` for `DOMContentLoaded`.  The
listener body is

    const tooltipTriggerList =
      [].slice.call(document.querySelectorAll('[data-bs-toggle="tooltip"]'));
    tooltipTriggerList.forEach(el => new bootstrap.Tooltip(el));

The pieces of the host platform that the script touches (the element tree, the
attribute selector query, `Array.prototype.slice`, `Array.prototype.forEach`,
`new`, listener registration and event dispatch) are embedded as pure functions
over an explicit world state, and the script itself as `runScript` and
`handler`.  The widget constructor `bootstrap.Tooltip` belongs to an external
library and is a parameter throughout.
-/

namespace TooltipApp

/-! ## Data model -/

/-- An attribute of an element: a name and a string value. -/
structure Attr where
  name : String
  value : String
  deriving DecidableEq, Repr

/-- A node of the element tree.  Every node is a heap object; `id` is its
reference (object identity).  Only elements can be selected by a query. -/
inductive Node where
  | element (id : Nat) (tag : String) (attrs : List Attr) (children : List Node)
  | text (id : Nat) (data : String)
  deriving Repr

/-- The document: the list of its top-level nodes. -/
structure Document where
  children : List Node
  deriving Repr

/-- What a query sees of an element: its reference and its attribute list. -/
structure Element where
  id : Nat
  tag : String
  attrs : List Attr
  deriving DecidableEq, Repr

/-- JavaScript values that occur in the script. -/
inductive Value where
  | undefined
  | element (id : Nat)
  | object (ref : Nat)
  deriving DecidableEq, Repr

/-- Values that can be thrown. -/
inductive Thrown where
  | referenceError (name : String)
  | typeError
  | value (v : Value)
  deriving DecidableEq, Repr

/-- The mutable world: the document and the trace of widget-constructor
invocations, each recorded as the argument list it received. -/
structure World where
  doc : Document
  calls : List (List Value)

/-- The completion of an evaluation together with the world it leaves. -/
abbrev Outcome := Except Thrown Value × World

/-- A widget constructor: given the argument list and the current world it
either returns a value or throws, and leaves a (possibly mutated) document.
It can read the call trace, so its behaviour may depend on history. -/
abbrev Ctor := List Value → World → Except Thrown Value × Document

/-- The global `bootstrap` binding. -/
structure Lib where
  Tooltip : Option Ctor

/-- The global environment: `bootstrap` is `none` when the identifier is not
defined; its `Tooltip` is `none` when that property is not a constructor. -/
structure Env where
  bootstrap : Option Lib

/-! ## Element tree traversal and the selector query -/

mutual
/-- The elements of a subtree in tree pre-order. -/
def Node.elements : Node → List Element
  | .element id tag attrs children => ⟨id, tag, attrs⟩ :: Node.elementsList children
  | .text _ _ => []
/-- The elements of a forest in tree pre-order. -/
def Node.elementsList : List Node → List Element
  | [] => []
  | n :: ns => Node.elements n ++ Node.elementsList ns
end

/-- All elements of the document, in document order. -/
def Document.elements (d : Document) : List Element :=
  Node.elementsList d.children

/-- The first attribute with the given name, as `getAttribute` reads it. -/
def Element.getAttribute (e : Element) (name : String) : Option String :=
  (e.attrs.find? (fun a => a.name == name)).map (fun a => a.value)

/-- Whether the element bears an attribute of that name, whatever its value. -/
def Element.hasAttribute (e : Element) (name : String) : Bool :=
  (e.getAttribute name).isSome

/-- The attribute selector `[name="value"]`. -/
structure AttrSelector where
  name : String
  value : String
  deriving DecidableEq, Repr

/-- An element matches `[name="value"]` when it has the attribute and its value
is exactly `value`. -/
def AttrSelector.matches (s : AttrSelector) (e : Element) : Bool :=
  e.getAttribute s.name == some s.value

/-- The static list of references returned by `document.querySelectorAll`: the
matching elements in document order. -/
def querySelectorAll (d : Document) (s : AttrSelector) : List Value :=
  (d.elements.filter s.matches).map (fun e => Value.element e.id)

/-- The selector written in the script: `[data-bs-toggle="tooltip"]`. -/
def tooltipSelector : AttrSelector := ⟨"data-bs-toggle", "tooltip"⟩

/-- The marked elements of a document: those the script's selector matches. -/
def marked (d : Document) : List Element :=
  d.elements.filter tooltipSelector.matches

/-- The unmarked elements of a document. -/
def unmarked (d : Document) : List Element :=
  d.elements.filter (fun e => !tooltipSelector.matches e)

/-! ## Array built-ins -/

/-- The built-in `Array.prototype.slice` applied to an array-like with
non-negative bounds; an omitted bound is `none`. -/
def arraySlice (o : List Value) (start fin : Option Nat) : List Value :=
  let len := o.length
  let k := min (start.getD 0) len
  let final := min (fin.getD len) len
  (o.drop k).take (final - k)

/-- The loop of `Array.prototype.forEach` from index `k` on: the callback gets
the element, its index and the array; its return value is dropped; a throw
ends the loop and propagates. -/
def forEachFrom (cb : Value → Nat → List Value → World → Outcome) (arr : List Value) :
    List Value → Nat → World → Outcome
  | [], _, w => (.ok .undefined, w)
  | x :: rest, k, w =>
    match cb x k arr w with
    | (.error e, w') => (.error e, w')
    | (.ok _, w') => forEachFrom cb arr rest (k + 1) w'

/-- The built-in `Array.prototype.forEach`. -/
def forEach (cb : Value → Nat → List Value → World → Outcome) (arr : List Value) (w : World) :
    Outcome :=
  forEachFrom cb arr arr 0 w

/-! ## The script -/

/-- The expression `new bootstrap.Tooltip(el)`: resolve `bootstrap`, read
`Tooltip`, and construct with the single argument `el`. -/
def newTooltip (env : Env) (el : Value) (w : World) : Outcome :=
  match env.bootstrap with
  | none => (.error (.referenceError "bootstrap"), w)
  | some lib =>
    match lib.Tooltip with
    | none => (.error .typeError, w)
    | some ctor =>
      let r := ctor [el] w
      (r.1, ⟨r.2, w.calls ++ [[el]]⟩)

/-- The arrow function `el => new bootstrap.Tooltip(el)`: it binds only the
first of the three arguments `forEach` supplies. -/
def tooltipCallback (env : Env) (el : Value) (_index : Nat) (_array : List Value) (w : World) :
    Outcome :=
  newTooltip env el w

/-- The listener body (lines 5 and 6 of the script). -/
def handler (env : Env) (w : World) : Outcome :=
  let tooltipTriggerList := arraySlice (querySelectorAll w.doc tooltipSelector) none none
  match forEach (tooltipCallback env) tooltipTriggerList w with
  | (.error e, w') => (.error e, w')
  | (.ok _, w') => (.ok .undefined, w')

/-- The constructor calls made by one run of the listener body started in `w`:
the part of the trace added after what `w` already held. -/
def passCalls (env : Env) (w : World) : List (List Value) :=
  (handler env w).2.calls.drop w.calls.length

/-! ## Listener registration, event dispatch and document mutation -/

/-- The callbacks the script can register: its single arrow function. -/
inductive Callback where
  | initTooltips
  deriving DecidableEq, Repr

/-- A registered event listener on `document`. -/
structure Listener where
  type : String
  callback : Callback
  deriving DecidableEq, Repr

/-- A page: the world, the listeners registered on `document`, and the faults
reported as uncaught by the host runtime. -/
structure Page where
  world : World
  listeners : List Listener
  uncaught : List Thrown

/-- A freshly parsed page, before any script ran. -/
def Page.fresh (d : Document) : Page := ⟨⟨d, []⟩, [], []⟩

/-- Evaluation of the script (line 4): `document.addEventListener` appends the
listener; each evaluation creates a new closure, so nothing is deduplicated. -/
def runScript (p : Page) : Page :=
  ⟨p.world, p.listeners ++ [⟨"DOMContentLoaded", .initTooltips⟩], p.uncaught⟩

/-- Running a registered callback. -/
def Callback.invoke (env : Env) : Callback → World → Outcome
  | .initTooltips => handler env

/-- Event dispatch over a list of listeners: each listener of the event type
runs in registration order; a fault thrown by a listener is reported as
uncaught and dispatch goes on with the next listener. -/
def dispatchListeners (env : Env) (ty : String) :
    List Listener → World → List Thrown → World × List Thrown
  | [], w, errs => (w, errs)
  | l :: ls, w, errs =>
    if l.type = ty then
      match l.callback.invoke env w with
      | (.error e, w') => dispatchListeners env ty ls w' (errs ++ [e])
      | (.ok _, w') => dispatchListeners env ty ls w' errs
    else dispatchListeners env ty ls w errs

/-- Firing an event of type `ty` at `document`. -/
def dispatch (env : Env) (ty : String) (p : Page) : Page :=
  let r := dispatchListeners env ty p.listeners p.world p.uncaught
  ⟨r.1, p.listeners, r.2⟩

/-- The reference of a node. -/
def Node.id : Node → Nat
  | .element id _ _ _ => id
  | .text id _ => id

mutual
/-- Append `n` as last child of the element whose reference is `parent`. -/
def Node.appendChild (parent : Nat) (n : Node) : Node → Node
  | .element id tag attrs children =>
    if id = parent then .element id tag attrs (children ++ [n])
    else .element id tag attrs (Node.appendChildList parent n children)
  | .text id data => .text id data
/-- Append `n` under `parent` somewhere in a forest. -/
def Node.appendChildList (parent : Nat) (n : Node) : List Node → List Node
  | [] => []
  | c :: cs => Node.appendChild parent n c :: Node.appendChildList parent n cs
end

mutual
/-- Remove the descendants whose reference is `target`. -/
def Node.removeBelow (target : Nat) : Node → Node
  | .element id tag attrs children => .element id tag attrs (Node.removeList target children)
  | .text id data => .text id data
/-- Remove from a forest the nodes whose reference is `target`. -/
def Node.removeList (target : Nat) : List Node → List Node
  | [] => []
  | c :: cs =>
    if c.id = target then Node.removeList target cs
    else Node.removeBelow target c :: Node.removeList target cs
end

mutual
/-- Remove the attribute `name` from the element whose reference is `target`. -/
def Node.removeAttribute (target : Nat) (name : String) : Node → Node
  | .element id tag attrs children =>
    .element id tag (if id = target then attrs.filter (fun a => !(a.name == name)) else attrs)
      (Node.removeAttributeList target name children)
  | .text id data => .text id data
/-- Remove the attribute `name` from `target` somewhere in a forest. -/
def Node.removeAttributeList (target : Nat) (name : String) : List Node → List Node
  | [] => []
  | c :: cs => Node.removeAttribute target name c :: Node.removeAttributeList target name cs
end

/-- The document after `parent.appendChild(n)` for a node `n` that is not
attached to the document (an attached node is moved by removing it first). -/
def Document.appendChild (d : Document) (parent : Nat) (n : Node) : Document :=
  ⟨Node.appendChildList parent n d.children⟩

/-- The document after the node `target` is removed. -/
def Document.remove (d : Document) (target : Nat) : Document :=
  ⟨Node.removeList target d.children⟩

/-- The document after `target.removeAttribute(name)`. -/
def Document.removeAttribute (d : Document) (target : Nat) (name : String) : Document :=
  ⟨Node.removeAttributeList target name d.children⟩

/-- What can happen to a page: an event fires, a node is inserted, a node is
removed. -/
inductive Step where
  | fire (type : String)
  | insert (parent : Nat) (n : Node)
  | remove (target : Nat)

/-- One step of the page. -/
def step (env : Env) (p : Page) : Step → Page
  | .fire ty => dispatch env ty p
  | .insert parent n => ⟨⟨p.world.doc.appendChild parent n, p.world.calls⟩, p.listeners, p.uncaught⟩
  | .remove target => ⟨⟨p.world.doc.remove target, p.world.calls⟩, p.listeners, p.uncaught⟩

/-- A run of the page: the steps taken one after another. -/
def run (env : Env) (p : Page) (steps : List Step) : Page :=
  steps.foldl (step env) p

/-- The load signal. -/
def Step.isLoad : Step → Bool
  | .fire ty => ty == "DOMContentLoaded"
  | _ => false

/-! ## Auxiliary notions used in the statements -/

/-- The environment in which `bootstrap.Tooltip` is the constructor `ctor`. -/
def Env.withTooltip (ctor : Ctor) : Env := ⟨some ⟨some ctor⟩⟩

/-- A constructor that never throws. -/
def Ctor.NeverThrows (ctor : Ctor) : Prop :=
  ∀ args w, ∃ v, (ctor args w).1 = .ok v

/-- Every element of the document is a distinct object. -/
def Document.DistinctIds (d : Document) : Prop :=
  (d.elements.map (fun e => e.id)).Nodup

/-- What the constructor does on each reference of `xs` when called on them in
succession from `w`, whatever the outcomes. -/
def ctorOutcomes (ctor : Ctor) : List Value → World → List (Except Thrown Value)
  | [], _ => []
  | x :: xs, w =>
    let r := ctor [x] w
    r.1 :: ctorOutcomes ctor xs ⟨r.2, w.calls ++ [[x]]⟩

/-- The constructor `ctor` with its returned value replaced through `f`. -/
def Ctor.mapReturn (f : Value → Value) (ctor : Ctor) : Ctor := fun args w =>
  match ctor args w with
  | (.ok v, d) => (.ok (f v), d)
  | (.error e, d) => (.error e, d)

/-! ## Sample inputs -/

/-- A `<button>` with a `data-bs-toggle` attribute of the given value. -/
def sampleButton (id : Nat) (toggle : String) : Node :=
  .element id "button" [⟨"class", "btn"⟩, ⟨"data-bs-toggle", toggle⟩] []

/-- A page whose only marked element is one `<button>`. -/
def oneButtonDoc : Document :=
  ⟨[.element 0 "html" [] [.element 1 "body" [] [sampleButton 2 "tooltip"]]]⟩

/-- A page with marked and unmarked elements, nested and interleaved. -/
def sampleDoc : Document :=
  ⟨[.element 0 "html" []
      [.element 1 "body" []
        [sampleButton 2 "tooltip", .text 9 "hi", sampleButton 3 "popover",
         .element 4 "div" [⟨"data-bs-toggle", "tooltip"⟩] [sampleButton 5 "tooltip"],
         .element 6 "span" [] []]]]⟩

/-- A constructor that returns a fresh object and leaves the document alone. -/
def plainCtor : Ctor := fun _ w => (.ok (.object w.calls.length), w.doc)

/-- A constructor that throws on its second invocation. -/
def secondThrowsCtor : Ctor := fun _ w =>
  if w.calls.length = 1 then (.error (.value (.object 7)), w.doc)
  else (.ok (.object w.calls.length), w.doc)

/-- A constructor that, on its first invocation, besides building the widget
inserts a new marked button under element 1 and removes element 5 from the
document. -/
def mutatingCtor : Ctor := fun _ w =>
  (.ok (.object w.calls.length),
    if w.calls.length = 0 then (w.doc.appendChild 1 (sampleButton 10 "tooltip")).remove 5
    else w.doc)

/-- Two runs of the listener body, one after the other. -/
def handlerTwice (env : Env) (w : World) : Outcome :=
  handler env (handler env w).2

/-- The page after the script was evaluated on a freshly parsed document and
the load signal fired once. -/
def loadedPage (env : Env) (d : Document) : Page :=
  step env (runScript (Page.fresh d)) (.fire "DOMContentLoaded")

/-- A page with a popover trigger, an element with an empty `data-bs-toggle`,
and a tooltip trigger. -/
def popoverDoc : Document :=
  ⟨[sampleButton 3 "popover", .element 7 "a" [⟨"data-bs-toggle", ""⟩] [],
    sampleButton 8 "tooltip"]⟩

/-- How many entries a loop that stops at the first throw reaches, given the
outcome on each entry: those up to and including the first throw, or all. -/
def reached : List (Except Thrown Value) → Nat
  | [] => 0
  | .error _ :: _ => 1
  | .ok _ :: rest => reached rest + 1

/-- A constructor that never throws and, on its first invocation, moves
button 2 to the end of element 1. -/
def movingCtor : Ctor := fun _ w =>
  (.ok (.object w.calls.length),
    if w.calls.length = 0 then (w.doc.remove 2).appendChild 1 (sampleButton 2 "tooltip")
    else w.doc)

/-- A constructor that throws unless element 5 is in the document, and leaves
the document alone. -/
def needsFive : Ctor := fun _ w =>
  (if 5 ∈ w.doc.elements.map (fun e => e.id) then .ok (.object w.calls.length)
    else .error .typeError,
    w.doc)

/-- The constructor `needsFive`, except that it also removes element 5 from
the document. -/
def needsFiveRemoving : Ctor := fun _ w =>
  (if 5 ∈ w.doc.elements.map (fun e => e.id) then .ok (.object w.calls.length)
    else .error .typeError,
    w.doc.remove 5)

/-! ## Basic facts about the built-ins and the listener body -/

theorem arraySlice_none (o : List Value) : arraySlice o none none = o := by
  simp [arraySlice]

theorem forEachFrom_cons_error {cb : Value → Nat → List Value → World → Outcome}
    {arr rest : List Value} {x : Value} {k : Nat} {w w' : World} {e : Thrown}
    (h : cb x k arr w = (.error e, w')) :
    forEachFrom cb arr (x :: rest) k w = (.error e, w') := by
  simp [forEachFrom, h]

theorem forEachFrom_cons_ok {cb : Value → Nat → List Value → World → Outcome}
    {arr rest : List Value} {x : Value} {k : Nat} {w w' : World} {v : Value}
    (h : cb x k arr w = (.ok v, w')) :
    forEachFrom cb arr (x :: rest) k w = forEachFrom cb arr rest (k + 1) w' := by
  simp [forEachFrom, h]

theorem newTooltip_unbound {env : Env} (hb : env.bootstrap = none) (el : Value) (w : World) :
    newTooltip env el w = (.error (.referenceError "bootstrap"), w) := by
  simp [newTooltip, hb]

theorem newTooltip_notCtor {env : Env} {lib : Lib} (hb : env.bootstrap = some lib)
    (ht : lib.Tooltip = none) (el : Value) (w : World) :
    newTooltip env el w = (.error .typeError, w) := by
  simp [newTooltip, hb, ht]

theorem newTooltip_ctor {env : Env} {lib : Lib} {ctor : Ctor} (hb : env.bootstrap = some lib)
    (ht : lib.Tooltip = some ctor) (el : Value) (w : World) :
    newTooltip env el w = ((ctor [el] w).1, ⟨(ctor [el] w).2, w.calls ++ [[el]]⟩) := by
  simp [newTooltip, hb, ht]

theorem newTooltip_withTooltip (ctor : Ctor) (el : Value) (w : World) :
    newTooltip (Env.withTooltip ctor) el w
      = ((ctor [el] w).1, ⟨(ctor [el] w).2, w.calls ++ [[el]]⟩) :=
  newTooltip_ctor rfl rfl el w

theorem handler_snd (env : Env) (w : World) :
    (handler env w).2
      = (forEachFrom (tooltipCallback env) (querySelectorAll w.doc tooltipSelector)
          (querySelectorAll w.doc tooltipSelector) 0 w).2 := by
  unfold handler forEach
  simp only [arraySlice_none]
  split <;> simp_all

theorem handler_fst (env : Env) (w : World) :
    (handler env w).1
      = match (forEachFrom (tooltipCallback env) (querySelectorAll w.doc tooltipSelector)
          (querySelectorAll w.doc tooltipSelector) 0 w).1 with
        | .error e => .error e
        | .ok _ => .ok .undefined := by
  unfold handler forEach
  simp only [arraySlice_none]
  split <;> simp_all

theorem querySelectorAll_tooltip (d : Document) :
    querySelectorAll d tooltipSelector = (marked d).map (fun e => Value.element e.id) := rfl

/-- With a constructor that never throws the loop visits every entry. -/
theorem forEachFrom_neverThrows (ctor : Ctor) (h : ctor.NeverThrows) (arr : List Value) :
    ∀ (xs : List Value) (k : Nat) (w : World),
      ∃ d, forEachFrom (tooltipCallback (Env.withTooltip ctor)) arr xs k w
        = (.ok .undefined, ⟨d, w.calls ++ xs.map (fun x => [x])⟩) := by
  intro xs
  induction xs with
  | nil => intro k w; exact ⟨w.doc, by simp [forEachFrom]⟩
  | cons x rest ih =>
    intro k w
    obtain ⟨v, hv⟩ := h [x] w
    obtain ⟨d, hd⟩ := ih (k + 1) ⟨(ctor [x] w).2, w.calls ++ [[x]]⟩
    refine ⟨d, ?_⟩
    have hcb : tooltipCallback (Env.withTooltip ctor) x k arr w
        = (.ok v, ⟨(ctor [x] w).2, w.calls ++ [[x]]⟩) := by
      simp [tooltipCallback, newTooltip_withTooltip, hv]
    rw [forEachFrom_cons_ok hcb, hd]
    simp

/-- Whatever the environment, the calls a loop adds are those for an initial
segment of its entries. -/
theorem forEachFrom_calls (env : Env) (arr : List Value) :
    ∀ (xs : List Value) (k : Nat) (w : World),
      ∃ n, n ≤ xs.length ∧
        (forEachFrom (tooltipCallback env) arr xs k w).2.calls
          = w.calls ++ (xs.take n).map (fun x => [x]) := by
  intro xs
  induction xs with
  | nil => intro k w; exact ⟨0, by simp [forEachFrom]⟩
  | cons x rest ih =>
    intro k w
    cases hb : env.bootstrap with
    | none =>
      have hcb : tooltipCallback env x k arr w = (.error (.referenceError "bootstrap"), w) :=
        newTooltip_unbound hb x w
      exact ⟨0, by simp [forEachFrom_cons_error hcb]⟩
    | some lib =>
      cases ht : lib.Tooltip with
      | none =>
        have hcb : tooltipCallback env x k arr w = (.error .typeError, w) :=
          newTooltip_notCtor hb ht x w
        exact ⟨0, by simp [forEachFrom_cons_error hcb]⟩
      | some ctor =>
        have hnew := newTooltip_ctor hb ht x w
        cases hc : (ctor [x] w).1 with
        | error e =>
          have hcb : tooltipCallback env x k arr w
              = (.error e, ⟨(ctor [x] w).2, w.calls ++ [[x]]⟩) := by
            simp [tooltipCallback, hnew, hc]
          exact ⟨1, by simp [forEachFrom_cons_error hcb]⟩
        | ok v =>
          have hcb : tooltipCallback env x k arr w
              = (.ok v, ⟨(ctor [x] w).2, w.calls ++ [[x]]⟩) := by
            simp [tooltipCallback, hnew, hc]
          obtain ⟨n, hn, hcalls⟩ := ih (k + 1) ⟨(ctor [x] w).2, w.calls ++ [[x]]⟩
          refine ⟨n + 1, by simpa using hn, ?_⟩
          rw [forEachFrom_cons_ok hcb, hcalls]
          simp

/-- The loop stops at the first entry on which the constructor throws. -/
theorem forEachFrom_throwsAt (ctor : Ctor) (arr : List Value) (err : Thrown) :
    ∀ (xs : List Value) (i k : Nat) (w : World),
      (ctorOutcomes ctor xs w)[i]? = some (.error err) →
      (∀ j, j < i → ∃ v, (ctorOutcomes ctor xs w)[j]? = some (.ok v)) →
      ∃ d, forEachFrom (tooltipCallback (Env.withTooltip ctor)) arr xs k w
        = (.error err, ⟨d, w.calls ++ (xs.take (i + 1)).map (fun x => [x])⟩) := by
  intro xs
  induction xs with
  | nil => intro i k w hi _; simp [ctorOutcomes] at hi
  | cons x rest ih =>
    intro i k w hi hlt
    cases i with
    | zero =>
      have hc : (ctor [x] w).1 = .error err := by simpa [ctorOutcomes] using hi
      have hcb : tooltipCallback (Env.withTooltip ctor) x k arr w
          = (.error err, ⟨(ctor [x] w).2, w.calls ++ [[x]]⟩) := by
        simp [tooltipCallback, newTooltip_withTooltip, hc]
      exact ⟨(ctor [x] w).2, by rw [forEachFrom_cons_error hcb]; simp⟩
    | succ i =>
      obtain ⟨v, hv⟩ := hlt 0 (Nat.succ_pos i)
      have hc : (ctor [x] w).1 = .ok v := by simpa [ctorOutcomes] using hv
      have hcb : tooltipCallback (Env.withTooltip ctor) x k arr w
          = (.ok v, ⟨(ctor [x] w).2, w.calls ++ [[x]]⟩) := by
        simp [tooltipCallback, newTooltip_withTooltip, hc]
      have hi' : (ctorOutcomes ctor rest ⟨(ctor [x] w).2, w.calls ++ [[x]]⟩)[i]?
          = some (.error err) := by simpa [ctorOutcomes] using hi
      have hlt' : ∀ j, j < i →
          ∃ v, (ctorOutcomes ctor rest ⟨(ctor [x] w).2, w.calls ++ [[x]]⟩)[j]? = some (.ok v) := by
        intro j hj
        obtain ⟨v', hv'⟩ := hlt (j + 1) (Nat.succ_lt_succ hj)
        exact ⟨v', by simpa [ctorOutcomes] using hv'⟩
      obtain ⟨d, hd⟩ := ih i (k + 1) _ hi' hlt'
      exact ⟨d, by rw [forEachFrom_cons_ok hcb, hd]; simp⟩

theorem plainCtor_neverThrows : plainCtor.NeverThrows := fun _ _ => ⟨_, rfl⟩

/-! ## The listener body as a whole -/

theorem matches_tooltip_iff (e : Element) :
    tooltipSelector.matches e = true ↔ e.getAttribute "data-bs-toggle" = some "tooltip" := by
  simp [AttrSelector.matches, tooltipSelector]

theorem mem_marked {d : Document} {e : Element} :
    e ∈ marked d ↔ e ∈ d.elements ∧ tooltipSelector.matches e = true := by
  simp [marked]

theorem handler_neverThrows (ctor : Ctor) (h : ctor.NeverThrows) (w : World) :
    ∃ d, handler (Env.withTooltip ctor) w
      = (.ok .undefined, ⟨d, w.calls ++ (marked w.doc).map (fun e => [Value.element e.id])⟩) := by
  obtain ⟨d, hd⟩ := forEachFrom_neverThrows ctor h (querySelectorAll w.doc tooltipSelector)
    (querySelectorAll w.doc tooltipSelector) 0 w
  refine ⟨d, ?_⟩
  have h1 := handler_fst (Env.withTooltip ctor) w
  have h2 := handler_snd (Env.withTooltip ctor) w
  rw [hd] at h1 h2
  rw [Prod.ext_iff]
  refine ⟨h1, ?_⟩
  rw [h2]
  simp [querySelectorAll_tooltip, List.map_map, Function.comp_def]

theorem passCalls_neverThrows (ctor : Ctor) (h : ctor.NeverThrows) (w : World) :
    passCalls (Env.withTooltip ctor) w = (marked w.doc).map (fun e => [Value.element e.id]) := by
  obtain ⟨d, hd⟩ := handler_neverThrows ctor h w
  simp [passCalls, hd]

theorem handler_calls (env : Env) (w : World) :
    ∃ n, n ≤ (marked w.doc).length ∧
      (handler env w).2.calls
        = w.calls ++ ((marked w.doc).take n).map (fun e => [Value.element e.id]) := by
  obtain ⟨n, hn, hc⟩ := forEachFrom_calls env (querySelectorAll w.doc tooltipSelector)
    (querySelectorAll w.doc tooltipSelector) 0 w
  refine ⟨n, by simpa [querySelectorAll_tooltip] using hn, ?_⟩
  rw [handler_snd, hc]
  simp [querySelectorAll_tooltip, List.map_take, List.map_map, Function.comp_def]

theorem passCalls_take (env : Env) (w : World) :
    ∃ n, n ≤ (marked w.doc).length ∧
      passCalls env w = ((marked w.doc).take n).map (fun e => [Value.element e.id]) := by
  obtain ⟨n, hn, hc⟩ := handler_calls env w
  exact ⟨n, hn, by simp [passCalls, hc]⟩

theorem handler_calls_eq (env : Env) (w : World) :
    (handler env w).2.calls = w.calls ++ passCalls env w := by
  obtain ⟨n, _, hc⟩ := handler_calls env w
  simp [passCalls, hc]

theorem count_eq_one_of_nodup {α : Type} [BEq α] [LawfulBEq α] {a : α} :
    ∀ {l : List α}, l.Nodup → a ∈ l → l.count a = 1 := by
  intro l
  induction l with
  | nil => intro _ h; simp at h
  | cons b l ih =>
    intro hnd hmem
    rw [List.nodup_cons] at hnd
    rw [List.count_cons]
    rcases List.mem_cons.1 hmem with hab | hal
    · subst hab
      simp [List.count_eq_zero_of_not_mem hnd.1]
    · have hne : ¬ (b == a) = true := by
        intro hba
        have : b = a := by simpa using hba
        exact hnd.1 (this ▸ hal)
      simp [ih hnd.2 hal, hne]

theorem marked_nodup {d : Document} (h : d.DistinctIds) :
    ((marked d).map (fun e => [Value.element e.id])).Nodup := by
  have hinj := List.inj_on_of_nodup_map h
  have hnd : (marked d).Nodup := (List.Nodup.of_map _ h).filter _
  refine List.Nodup.map_on ?_ hnd
  intro a ha b hb hab
  have hid : a.id = b.id := by simpa using hab
  exact hinj (mem_marked.1 ha).1 (mem_marked.1 hb).1 hid

theorem count_marked {d : Document} (h : d.DistinctIds) {e : Element} (he : e ∈ d.elements) :
    ((marked d).map (fun e => [Value.element e.id])).count [Value.element e.id]
      = if tooltipSelector.matches e = true then 1 else 0 := by
  have hinj := List.inj_on_of_nodup_map h
  split
  · next hm =>
    apply count_eq_one_of_nodup (marked_nodup h)
    exact List.mem_map.2 ⟨e, mem_marked.2 ⟨he, hm⟩, rfl⟩
  · next hm =>
    apply List.count_eq_zero_of_not_mem
    intro hmem
    obtain ⟨a, ha, hae⟩ := List.mem_map.1 hmem
    have hid : a.id = e.id := by simpa using hae
    have := hinj (mem_marked.1 ha).1 he hid
    exact hm (this ▸ (mem_marked.1 ha).2)

theorem split_at_index {α : Type} :
    ∀ (l : List α) (i : Nat) (a : α), l[i]? = some a →
      ∃ l1 l2, l = l1 ++ a :: l2 ∧ l1.length = i := by
  intro l
  induction l with
  | nil => intro i a h; simp at h
  | cons x xs ih =>
    intro i a h
    cases i with
    | zero =>
      have : x = a := by simpa using h
      exact ⟨[], xs, by simp [this], rfl⟩
    | succ i =>
      have h' : xs[i]? = some a := by simpa using h
      obtain ⟨l1, l2, hl, hlen⟩ := ih i a h'
      exact ⟨x :: l1, l2, by simp [hl], by simp [hlen]⟩

theorem getElem?_append_cons {α : Type} (l1 l2 : List α) (a : α) :
    (l1 ++ a :: l2)[l1.length]? = some a := by
  rw [List.getElem?_append_right (Nat.le_refl _)]
  simp

/-- Filtering keeps relative order: two kept entries of a list appear in the
filtered and mapped list at increasing positions. -/
theorem filter_map_order {α β : Type} (p : α → Bool) (f : α → β) (l : List α) (i j : Nat)
    (a b : α) (hij : i < j) (hi : l[i]? = some a) (hj : l[j]? = some b)
    (ha : p a = true) (hb : p b = true) :
    ∃ i' j' : Nat, i' < j' ∧ ((l.filter p).map f)[i']? = some (f a)
      ∧ ((l.filter p).map f)[j']? = some (f b) := by
  obtain ⟨l1, l2, hl, hlen⟩ := split_at_index l i a hi
  subst hl
  have hj' : l2[j - l1.length - 1]? = some b := by
    have h1 : l1.length ≤ j := by omega
    rw [List.getElem?_append_right h1] at hj
    have h2 : j - l1.length = (j - l1.length - 1) + 1 := by omega
    rw [h2] at hj
    simpa using hj
  obtain ⟨l3, l4, hl2, _⟩ := split_at_index l2 _ b hj'
  subst hl2
  refine ⟨(l1.filter p).length, (l1.filter p).length + 1 + (l3.filter p).length, by omega, ?_, ?_⟩
  · have e : List.map f (List.filter p (l1 ++ a :: (l3 ++ b :: l4)))
        = List.map f (List.filter p l1)
            ++ f a :: (List.map f (List.filter p l3) ++ f b :: List.map f (List.filter p l4)) := by
      simp [List.filter_append, List.filter_cons, ha, hb]
    rw [e]
    have hlen' : (l1.filter p).length = (List.map f (List.filter p l1)).length := by simp
    rw [hlen']
    exact getElem?_append_cons _ _ _
  · have e : List.map f (List.filter p (l1 ++ a :: (l3 ++ b :: l4)))
        = (List.map f (List.filter p l1) ++ f a :: List.map f (List.filter p l3))
            ++ f b :: List.map f (List.filter p l4) := by
      simp [List.filter_append, List.filter_cons, ha, hb]
    rw [e]
    have hlen' : (l1.filter p).length + 1 + (l3.filter p).length
        = (List.map f (List.filter p l1) ++ f a :: List.map f (List.filter p l3)).length := by
      simp; omega
    rw [hlen']
    exact getElem?_append_cons _ _ _

/-! ## Claims about one run of the listener body -/

/-- C1: for a document with N marked and M unmarked elements, all distinct
objects, and a constructor that never throws, one run of the load handler
completes normally and makes exactly N constructor calls: exactly one call
whose argument is each marked element and none whose argument is an unmarked
element; every call is for an element that carries `data-bs-toggle="tooltip"`,
and so does every entry of the matched sequence. -/
theorem handler_one_call_per_marked_element (ctor : Ctor) (w : World)
    (hctor : ctor.NeverThrows) (hids : w.doc.DistinctIds) :
    (handler (Env.withTooltip ctor) w).1 = .ok .undefined ∧
    (passCalls (Env.withTooltip ctor) w).length = (marked w.doc).length ∧
    (marked w.doc).length + (unmarked w.doc).length = w.doc.elements.length ∧
    (∀ e ∈ w.doc.elements,
      (passCalls (Env.withTooltip ctor) w).count [Value.element e.id]
        = if tooltipSelector.matches e = true then 1 else 0) ∧
    (∀ c ∈ passCalls (Env.withTooltip ctor) w, ∃ e ∈ w.doc.elements,
      e.getAttribute "data-bs-toggle" = some "tooltip" ∧ c = [Value.element e.id]) ∧
    (∀ v ∈ querySelectorAll w.doc tooltipSelector, ∃ e ∈ w.doc.elements,
      e.getAttribute "data-bs-toggle" = some "tooltip" ∧ v = Value.element e.id) := by
  obtain ⟨d, hd⟩ := handler_neverThrows ctor hctor w
  have hp := passCalls_neverThrows ctor hctor w
  refine ⟨by rw [hd], by simp [hp], ?_, ?_, ?_, ?_⟩
  · unfold marked unmarked
    have := List.length_eq_length_filter_add tooltipSelector.matches (l := w.doc.elements)
    simpa using this.symm
  · intro e he
    rw [hp]
    exact count_marked hids he
  · intro c hc
    rw [hp] at hc
    obtain ⟨e, he, rfl⟩ := List.mem_map.1 hc
    exact ⟨e, (mem_marked.1 he).1, (matches_tooltip_iff e).1 (mem_marked.1 he).2, rfl⟩
  · intro v hv
    rw [querySelectorAll_tooltip] at hv
    obtain ⟨e, he, rfl⟩ := List.mem_map.1 hv
    exact ⟨e, (mem_marked.1 he).1, (matches_tooltip_iff e).1 (mem_marked.1 he).2, rfl⟩

/-- Witness for C1: a page with one marked button, run with a constructor that
never throws, yields exactly one call, bound to that button. -/
theorem handler_one_call_per_marked_element_witness :
    plainCtor.NeverThrows ∧ oneButtonDoc.DistinctIds ∧
    (passCalls (Env.withTooltip plainCtor) ⟨oneButtonDoc, []⟩).length = 1 ∧
    (passCalls (Env.withTooltip plainCtor) ⟨oneButtonDoc, []⟩).count [Value.element 2] = 1 ∧
    (passCalls (Env.withTooltip plainCtor) ⟨oneButtonDoc, []⟩).count [Value.element 1] = 0 := by
  have hids : oneButtonDoc.DistinctIds := by unfold Document.DistinctIds; decide
  have h := handler_one_call_per_marked_element plainCtor ⟨oneButtonDoc, []⟩
    plainCtor_neverThrows hids
  refine ⟨plainCtor_neverThrows, hids, h.2.1, ?_, ?_⟩
  · exact h.2.2.2.1 ⟨2, "button", [⟨"class", "btn"⟩, ⟨"data-bs-toggle", "tooltip"⟩]⟩ (by decide)
  · exact h.2.2.2.1 ⟨1, "body", []⟩ (by decide)

/-- C2: with a constructor that never throws, the sequence of arguments of the
constructor calls of one run is exactly the sequence of marked elements in
document (pre-order) order; the marked elements keep the order they have in
the document, and when a marked element `a` precedes a marked element `b` in
the document the call for `a` comes before the call for `b`. -/
theorem handler_calls_in_document_order (ctor : Ctor) (w : World) (hctor : ctor.NeverThrows) :
    passCalls (Env.withTooltip ctor) w
      = ((w.doc.elements.filter tooltipSelector.matches).map (fun e => [Value.element e.id])) ∧
    (marked w.doc).Sublist w.doc.elements ∧
    (∀ (i j : Nat) (a b : Element), i < j →
      w.doc.elements[i]? = some a → w.doc.elements[j]? = some b →
      tooltipSelector.matches a = true → tooltipSelector.matches b = true →
      ∃ i' j' : Nat, i' < j' ∧
        (passCalls (Env.withTooltip ctor) w)[i']? = some [Value.element a.id] ∧
        (passCalls (Env.withTooltip ctor) w)[j']? = some [Value.element b.id]) := by
  have hp := passCalls_neverThrows ctor hctor w
  refine ⟨hp, List.filter_sublist _, ?_⟩
  intro i j a b hij hi hj ha hb
  rw [hp]
  exact filter_map_order tooltipSelector.matches (fun e => [Value.element e.id])
    w.doc.elements i j a b hij hi hj ha hb

/-- Witness for C2: on the sample page the calls are for elements 2, 4, 5, in
that order (4 is the parent of 5; 3 and 6 are unmarked). -/
theorem handler_calls_in_document_order_witness :
    plainCtor.NeverThrows ∧
    passCalls (Env.withTooltip plainCtor) ⟨sampleDoc, []⟩
      = [[Value.element 2], [Value.element 4], [Value.element 5]] :=
  ⟨plainCtor_neverThrows,
    (handler_calls_in_document_order plainCtor ⟨sampleDoc, []⟩ plainCtor_neverThrows).1⟩

/-- C5: on a page with no marked element one run of the load handler makes no
constructor call and completes normally, leaving the world as it was, in every
environment: whatever the constructor does, and also when `bootstrap` or
`bootstrap.Tooltip` is not defined. -/
theorem handler_no_marked_elements (env : Env) (w : World) (h : marked w.doc = []) :
    handler env w = (.ok .undefined, w) ∧ passCalls env w = [] := by
  have hq : querySelectorAll w.doc tooltipSelector = [] := by
    rw [querySelectorAll_tooltip, h]; rfl
  have hh : handler env w = (.ok .undefined, w) := by
    simp [handler, forEach, arraySlice_none, hq, forEachFrom]
  exact ⟨hh, by simp [passCalls, hh]⟩

/-- Witness for C5: a page without marked elements, run where `bootstrap` is
not defined. -/
theorem handler_no_marked_elements_witness :
    marked ⟨[sampleButton 3 "popover"]⟩ = [] ∧
    handler ⟨none⟩ ⟨⟨[sampleButton 3 "popover"]⟩, []⟩
      = (.ok .undefined, ⟨⟨[sampleButton 3 "popover"]⟩, []⟩) :=
  ⟨by decide, (handler_no_marked_elements ⟨none⟩ ⟨⟨[sampleButton 3 "popover"]⟩, []⟩ (by decide)).1⟩

theorem passCalls_neverThrows_query (ctor : Ctor) (h : ctor.NeverThrows) (w : World) :
    passCalls (Env.withTooltip ctor) w
      = (querySelectorAll w.doc tooltipSelector).map (fun x => [x]) := by
  rw [passCalls_neverThrows ctor h w, querySelectorAll_tooltip]
  simp [List.map_map, Function.comp_def]

theorem ctorOutcomes_length (ctor : Ctor) :
    ∀ (xs : List Value) (w : World), (ctorOutcomes ctor xs w).length = xs.length := by
  intro xs
  induction xs with
  | nil => intro w; rfl
  | cons x rest ih => intro w; simp [ctorOutcomes, ih]

theorem not_mem_take_of_later {α : Type} {l : List α} (hnd : l.Nodup) {i j : Nat} {x : α}
    (hij : i < j) (hj : l[j]? = some x) : x ∉ l.take (i + 1) := by
  intro hmem
  have hdrop : x ∈ l.drop (i + 1) := by
    apply List.getElem?_mem (n := j - (i + 1))
    rw [List.getElem?_drop]
    have : i + 1 + (j - (i + 1)) = j := by omega
    rw [this, hj]
  exact List.disjoint_take_drop hnd (Nat.le_refl _) hmem hdrop

theorem forEachFrom_mapReturn (ctor : Ctor) (f : Value → Value) (arr : List Value) :
    ∀ (xs : List Value) (k : Nat) (w : World),
      forEachFrom (tooltipCallback (Env.withTooltip (ctor.mapReturn f))) arr xs k w
        = forEachFrom (tooltipCallback (Env.withTooltip ctor)) arr xs k w := by
  intro xs
  induction xs with
  | nil => intro k w; rfl
  | cons x rest ih =>
    intro k w
    rcases h : ctor [x] w with ⟨o, d⟩
    cases o with
    | error e =>
      have h1 : tooltipCallback (Env.withTooltip (ctor.mapReturn f)) x k arr w
          = (.error e, ⟨d, w.calls ++ [[x]]⟩) := by
        simp [tooltipCallback, newTooltip_withTooltip, Ctor.mapReturn, h]
      have h2 : tooltipCallback (Env.withTooltip ctor) x k arr w
          = (.error e, ⟨d, w.calls ++ [[x]]⟩) := by
        simp [tooltipCallback, newTooltip_withTooltip, h]
      rw [forEachFrom_cons_error h1, forEachFrom_cons_error h2]
    | ok v =>
      have h1 : tooltipCallback (Env.withTooltip (ctor.mapReturn f)) x k arr w
          = (.ok (f v), ⟨d, w.calls ++ [[x]]⟩) := by
        simp [tooltipCallback, newTooltip_withTooltip, Ctor.mapReturn, h]
      have h2 : tooltipCallback (Env.withTooltip ctor) x k arr w
          = (.ok v, ⟨d, w.calls ++ [[x]]⟩) := by
        simp [tooltipCallback, newTooltip_withTooltip, h]
      rw [forEachFrom_cons_ok h1, forEachFrom_cons_ok h2, ih]

theorem movingCtor_neverThrows : movingCtor.NeverThrows := fun _ _ => ⟨_, rfl⟩

theorem mem_passCalls_neverThrows (ctor : Ctor) (h : ctor.NeverThrows) (w : World) (v : Value) :
    [v] ∈ passCalls (Env.withTooltip ctor) w ↔ v ∈ querySelectorAll w.doc tooltipSelector := by
  rw [passCalls_neverThrows_query ctor h w]
  simp

theorem passCalls_nodup (ctor : Ctor) (h : ctor.NeverThrows) (w : World)
    (hids : w.doc.DistinctIds) : (passCalls (Env.withTooltip ctor) w).Nodup := by
  rw [passCalls_neverThrows ctor h w]
  exact marked_nodup hids

/-- C3 as stated fails: a constructor that never throws and moves button 2 to
the end of its parent keeps the set of marked elements of the sample page
(2, 4, 5, all distinct objects) unchanged between the runs, yet the trace of
two runs, 2 4 5 4 5 2, is not the trace of one run followed by itself. -/
theorem two_runs_trace_not_doubled :
    movingCtor.NeverThrows ∧ sampleDoc.DistinctIds ∧
    (∀ v, v ∈ querySelectorAll (handler (Env.withTooltip movingCtor) ⟨sampleDoc, []⟩).2.doc
            tooltipSelector
        ↔ v ∈ querySelectorAll sampleDoc tooltipSelector) ∧
    (handlerTwice (Env.withTooltip movingCtor) ⟨sampleDoc, []⟩).2.calls
      = [[Value.element 2], [Value.element 4], [Value.element 5],
         [Value.element 4], [Value.element 5], [Value.element 2]] ∧
    (handlerTwice (Env.withTooltip movingCtor) ⟨sampleDoc, []⟩).2.calls
      ≠ passCalls (Env.withTooltip movingCtor) ⟨sampleDoc, []⟩
          ++ passCalls (Env.withTooltip movingCtor) ⟨sampleDoc, []⟩ := by
  have h1 : querySelectorAll (handler (Env.withTooltip movingCtor) ⟨sampleDoc, []⟩).2.doc
      tooltipSelector = [Value.element 4, Value.element 5, Value.element 2] := by decide
  have h0 : querySelectorAll sampleDoc tooltipSelector
      = [Value.element 2, Value.element 4, Value.element 5] := by decide
  refine ⟨movingCtor_neverThrows, by unfold Document.DistinctIds; decide, ?_, by decide,
    by decide⟩
  intro v
  rw [h1, h0]
  simp only [List.mem_cons, List.mem_singleton, List.not_mem_nil, or_false]
  tauto

/-- C3 amended: the load handler is not idempotent.  With a constructor that
never throws, on a document of distinct elements whose set of marked elements
is the same at the second run as at the first (the elements still being
distinct objects), the trace of two runs is the calls of the first pass
followed by those of the second, the second being a rearrangement of the
first; every marked element gets exactly two constructor calls; when at least
one element is marked the world after two runs differs from the world after
one; and when the matched sequence is unchanged, order included, the trace of
two runs is the trace of one run followed by itself. -/
theorem handler_twice_calls_each_marked_twice (ctor : Ctor) (w : World)
    (hctor : ctor.NeverThrows) (hids : w.doc.DistinctIds)
    (hids1 : (handler (Env.withTooltip ctor) w).2.doc.DistinctIds)
    (hset : ∀ v, v ∈ querySelectorAll (handler (Env.withTooltip ctor) w).2.doc tooltipSelector
      ↔ v ∈ querySelectorAll w.doc tooltipSelector) :
    (handlerTwice (Env.withTooltip ctor) w).2.calls
      = w.calls ++ (passCalls (Env.withTooltip ctor) w
          ++ passCalls (Env.withTooltip ctor) (handler (Env.withTooltip ctor) w).2) ∧
    (passCalls (Env.withTooltip ctor) (handler (Env.withTooltip ctor) w).2).Perm
      (passCalls (Env.withTooltip ctor) w) ∧
    (∀ e ∈ marked w.doc,
      ((handlerTwice (Env.withTooltip ctor) w).2.calls.drop w.calls.length).count
        [Value.element e.id] = 2) ∧
    (marked w.doc ≠ [] →
      (handlerTwice (Env.withTooltip ctor) w).2.calls ≠ (handler (Env.withTooltip ctor) w).2.calls ∧
      (handlerTwice (Env.withTooltip ctor) w).2 ≠ (handler (Env.withTooltip ctor) w).2) ∧
    (querySelectorAll (handler (Env.withTooltip ctor) w).2.doc tooltipSelector
        = querySelectorAll w.doc tooltipSelector →
      (handlerTwice (Env.withTooltip ctor) w).2.calls
        = w.calls ++ (passCalls (Env.withTooltip ctor) w
            ++ passCalls (Env.withTooltip ctor) w)) := by
  have hc1 := handler_calls_eq (Env.withTooltip ctor) w
  have hc2 := handler_calls_eq (Env.withTooltip ctor) (handler (Env.withTooltip ctor) w).2
  have htwice : (handlerTwice (Env.withTooltip ctor) w).2.calls
      = w.calls ++ (passCalls (Env.withTooltip ctor) w
          ++ passCalls (Env.withTooltip ctor) (handler (Env.withTooltip ctor) w).2) := by
    unfold handlerTwice
    rw [hc2, hc1, List.append_assoc]
  have hnd0 := passCalls_nodup ctor hctor w hids
  have hnd1 := passCalls_nodup ctor hctor _ hids1
  have hmem : ∀ v, [v] ∈ passCalls (Env.withTooltip ctor) (handler (Env.withTooltip ctor) w).2
      ↔ [v] ∈ passCalls (Env.withTooltip ctor) w := by
    intro v
    rw [mem_passCalls_neverThrows ctor hctor, mem_passCalls_neverThrows ctor hctor]
    exact hset v
  have hmem0 : ∀ e ∈ marked w.doc, [Value.element e.id] ∈ passCalls (Env.withTooltip ctor) w := by
    intro e he
    rw [passCalls_neverThrows ctor hctor w]
    exact List.mem_map.2 ⟨e, he, rfl⟩
  refine ⟨htwice, ?_, ?_, ?_, ?_⟩
  · refine (List.perm_ext_iff_of_nodup hnd1 hnd0).2 ?_
    intro c
    constructor
    · intro hc
      have hc' := hc
      rw [passCalls_neverThrows_query ctor hctor] at hc'
      obtain ⟨v, _, rfl⟩ := List.mem_map.1 hc'
      exact (hmem v).1 hc
    · intro hc
      have hc' := hc
      rw [passCalls_neverThrows_query ctor hctor] at hc'
      obtain ⟨v, _, rfl⟩ := List.mem_map.1 hc'
      exact (hmem v).2 hc
  · intro e he
    rw [htwice, List.drop_left, List.count_append,
      count_eq_one_of_nodup hnd0 (hmem0 e he),
      count_eq_one_of_nodup hnd1 ((hmem _).2 (hmem0 e he))]
  · intro hne
    obtain ⟨e, he⟩ := List.exists_mem_of_ne_nil _ hne
    have hin := (hmem _).2 (hmem0 e he)
    have hlen : (passCalls (Env.withTooltip ctor) (handler (Env.withTooltip ctor) w).2).length
        ≠ 0 := by
      intro h0
      rw [List.length_eq_zero.1 h0] at hin
      simp at hin
    have hcalls : (handlerTwice (Env.withTooltip ctor) w).2.calls
        ≠ (handler (Env.withTooltip ctor) w).2.calls := by
      intro heq
      have := congrArg List.length heq
      rw [htwice, hc1] at this
      simp only [List.length_append] at this
      exact hlen (by omega)
    exact ⟨hcalls, fun heq => hcalls (by rw [heq])⟩
  · intro hseq
    have hp2 := passCalls_neverThrows_query ctor hctor (handler (Env.withTooltip ctor) w).2
    rw [hseq, ← passCalls_neverThrows_query ctor hctor w] at hp2
    rw [htwice, hp2]

/-- Witness for the amended C3: on the sample page with the constructor that
moves button 2, two runs call 2, 4 and 5 exactly twice each, the second pass
in the order 4, 5, 2. -/
theorem handler_twice_calls_each_marked_twice_witness :
    (handlerTwice (Env.withTooltip movingCtor) ⟨sampleDoc, []⟩).2.calls
      = [] ++ (passCalls (Env.withTooltip movingCtor) ⟨sampleDoc, []⟩
          ++ passCalls (Env.withTooltip movingCtor)
              (handler (Env.withTooltip movingCtor) ⟨sampleDoc, []⟩).2) ∧
    (handlerTwice (Env.withTooltip movingCtor) ⟨sampleDoc, []⟩).2.calls
      = [[Value.element 2], [Value.element 4], [Value.element 5],
         [Value.element 4], [Value.element 5], [Value.element 2]] ∧
    ((handlerTwice (Env.withTooltip movingCtor) ⟨sampleDoc, []⟩).2.calls.drop 0).count
      [Value.element 2] = 2 := by
  have h1 : querySelectorAll (handler (Env.withTooltip movingCtor) ⟨sampleDoc, []⟩).2.doc
      tooltipSelector = [Value.element 4, Value.element 5, Value.element 2] := by decide
  have h0 : querySelectorAll sampleDoc tooltipSelector
      = [Value.element 2, Value.element 4, Value.element 5] := by decide
  have h := handler_twice_calls_each_marked_twice movingCtor ⟨sampleDoc, []⟩
    movingCtor_neverThrows (by unfold Document.DistinctIds; decide)
    (by unfold Document.DistinctIds; decide)
    (by
      intro v
      rw [h1, h0]
      simp only [List.mem_cons, List.mem_singleton, List.not_mem_nil, or_false]
      tauto)
  exact ⟨h.1, by decide,
    h.2.2.1 ⟨2, "button", [⟨"class", "btn"⟩, ⟨"data-bs-toggle", "tooltip"⟩]⟩ (by decide)⟩

/-- C4: when the constructor throws `err` on the matched element at position
`i` (counting from 0, so the k-th with k = i + 1) and returns normally on every
earlier one, the run of the load handler ends with `err` thrown, the
constructor was called for exactly the first `i + 1` matched elements, in
order, and (elements being distinct objects) for no later matched element; the
host runtime records `err` as uncaught. -/
theorem handler_aborts_at_throwing_constructor (ctor : Ctor) (w : World) (i : Nat) (err : Thrown)
    (hthrow : (ctorOutcomes ctor (querySelectorAll w.doc tooltipSelector) w)[i]?
      = some (.error err))
    (hbefore : ∀ j, j < i →
      ∃ v, (ctorOutcomes ctor (querySelectorAll w.doc tooltipSelector) w)[j]? = some (.ok v)) :
    (handler (Env.withTooltip ctor) w).1 = .error err ∧
    passCalls (Env.withTooltip ctor) w
      = ((marked w.doc).take (i + 1)).map (fun e => [Value.element e.id]) ∧
    (passCalls (Env.withTooltip ctor) w).length = i + 1 ∧
    (w.doc.DistinctIds → ∀ (j : Nat) (e : Element), i < j → (marked w.doc)[j]? = some e →
      [Value.element e.id] ∉ passCalls (Env.withTooltip ctor) w) ∧
    (dispatch (Env.withTooltip ctor) "DOMContentLoaded" (runScript ⟨w, [], []⟩)).uncaught
      = [err] := by
  obtain ⟨d, hd⟩ := forEachFrom_throwsAt ctor (querySelectorAll w.doc tooltipSelector) err
    (querySelectorAll w.doc tooltipSelector) i 0 w hthrow hbefore
  have h1 := handler_fst (Env.withTooltip ctor) w
  have h2 := handler_snd (Env.withTooltip ctor) w
  rw [hd] at h1 h2
  have hfst : (handler (Env.withTooltip ctor) w).1 = .error err := h1
  have hpass : passCalls (Env.withTooltip ctor) w
      = ((marked w.doc).take (i + 1)).map (fun e => [Value.element e.id]) := by
    simp [passCalls, h2, querySelectorAll_tooltip, List.map_take, List.map_map,
      Function.comp_def]
  have hilt : i < (marked w.doc).length := by
    have h := (List.getElem?_eq_some_iff.1 hthrow).1
    rw [ctorOutcomes_length, querySelectorAll_tooltip] at h
    simpa using h
  refine ⟨hfst, hpass, ?_, ?_, ?_⟩
  · rw [hpass]
    simp
    omega
  · intro hids j e hij hj
    rw [hpass, List.map_take]
    apply not_mem_take_of_later (marked_nodup hids) hij
    simp [hj]
  · rcases hh : handler (Env.withTooltip ctor) w with ⟨o, w'⟩
    have ho : o = .error err := by rw [hh] at hfst; exact hfst
    subst ho
    simp [dispatch, runScript, dispatchListeners, Callback.invoke, hh]

/-- Witness for C4: on the sample page (matched elements 2, 4, 5) a constructor
that throws on its second call stops the run after the calls for 2 and 4. -/
theorem handler_aborts_at_throwing_constructor_witness :
    (handler (Env.withTooltip secondThrowsCtor) ⟨sampleDoc, []⟩).1
      = .error (.value (.object 7)) ∧
    passCalls (Env.withTooltip secondThrowsCtor) ⟨sampleDoc, []⟩
      = [[Value.element 2], [Value.element 4]] := by
  have h := handler_aborts_at_throwing_constructor secondThrowsCtor ⟨sampleDoc, []⟩ 1
    (.value (.object 7)) rfl
    (by
      intro j hj
      have hj0 : j = 0 := by omega
      subst hj0
      exact ⟨_, rfl⟩)
  exact ⟨h.1, h.2.1⟩

/-- C8: every constructor call made by the load handler receives exactly one
argument, a matched element, and nothing else (no options argument); the value
a constructor call returns is discarded: replacing the returned values by any
others leaves the completion and the world of the run unchanged, and a run that
completes normally yields `undefined`. -/
theorem handler_passes_element_only (env : Env) (ctor : Ctor) (f : Value → Value) (w : World) :
    (∀ c ∈ passCalls env w, c.length = 1 ∧ ∃ e ∈ marked w.doc, c = [Value.element e.id]) ∧
    handler (Env.withTooltip (ctor.mapReturn f)) w = handler (Env.withTooltip ctor) w ∧
    (∀ v, (handler env w).1 = .ok v → v = .undefined) := by
  refine ⟨?_, ?_, ?_⟩
  · intro c hc
    obtain ⟨n, _, hp⟩ := passCalls_take env w
    rw [hp] at hc
    obtain ⟨e, he, rfl⟩ := List.mem_map.1 hc
    exact ⟨rfl, e, List.mem_of_mem_take he, rfl⟩
  · simp only [handler, forEach, forEachFrom_mapReturn]
  · intro v hv
    rw [handler_fst] at hv
    split at hv
    · cases hv
    · cases hv; rfl

/-- The calls a loop adds are those for exactly the entries it reaches. -/
theorem forEachFrom_reached (ctor : Ctor) (arr : List Value) :
    ∀ (xs : List Value) (k : Nat) (w : World),
      (forEachFrom (tooltipCallback (Env.withTooltip ctor)) arr xs k w).2.calls
        = w.calls ++ (xs.take (reached (ctorOutcomes ctor xs w))).map (fun x => [x]) := by
  intro xs
  induction xs with
  | nil => intro k w; simp [forEachFrom, ctorOutcomes, reached]
  | cons x rest ih =>
    intro k w
    cases h1 : (ctor [x] w).1 with
    | error e =>
      have hcb : tooltipCallback (Env.withTooltip ctor) x k arr w
          = (.error e, ⟨(ctor [x] w).2, w.calls ++ [[x]]⟩) := by
        simp [tooltipCallback, newTooltip_withTooltip, h1]
      rw [forEachFrom_cons_error hcb]
      simp [ctorOutcomes, reached, h1]
    | ok v =>
      have hcb : tooltipCallback (Env.withTooltip ctor) x k arr w
          = (.ok v, ⟨(ctor [x] w).2, w.calls ++ [[x]]⟩) := by
        simp [tooltipCallback, newTooltip_withTooltip, h1]
      rw [forEachFrom_cons_ok hcb, ih]
      simp [ctorOutcomes, reached, h1]

theorem passCalls_reached (ctor : Ctor) (w : World) :
    passCalls (Env.withTooltip ctor) w
      = ((marked w.doc).take
          (reached (ctorOutcomes ctor (querySelectorAll w.doc tooltipSelector) w))).map
          (fun e => [Value.element e.id]) := by
  unfold passCalls
  rw [handler_snd, forEachFrom_reached]
  simp [querySelectorAll_tooltip, List.map_take, List.map_map, Function.comp_def]

/-- C10 as stated fails: `needsFive` and `needsFiveRemoving` complete alike on
every world and differ only in that the second removes element 5 from the
document, yet on the sample page (matched elements 2, 4, 5) the first is called
for 2, 4 and 5 and the second only for 2 and 4, its second call throwing once
element 5 is gone: the removed matched element gets no call. -/
theorem mutation_changes_calls_through_throw :
    (∀ args w, (needsFive args w).1 = (needsFiveRemoving args w).1) ∧
    passCalls (Env.withTooltip needsFive) ⟨sampleDoc, []⟩
      = [[Value.element 2], [Value.element 4], [Value.element 5]] ∧
    passCalls (Env.withTooltip needsFiveRemoving) ⟨sampleDoc, []⟩
      = [[Value.element 2], [Value.element 4]] ∧
    passCalls (Env.withTooltip needsFive) ⟨sampleDoc, []⟩
      ≠ passCalls (Env.withTooltip needsFiveRemoving) ⟨sampleDoc, []⟩ :=
  ⟨fun _ _ => rfl, by decide, by decide, by decide⟩

/-- C10 amended: the constructor arguments of one run are fixed by the document
as it is when the query executes, up to where the constructor first throws.
For every constructor, whatever it does to the document, the calls of one run
are exactly those for the first `reached` elements matched in the initial
document, in order, so every call is for an element matched at query time; a
constructor that never throws is called for every element matched at query
time and no other; two constructors started from the same world make the same
calls when they reach equally far, in particular when neither throws. -/
theorem handler_calls_fixed_at_query_time (c1 c2 : Ctor) (w : World) :
    passCalls (Env.withTooltip c1) w
      = ((marked w.doc).take
          (reached (ctorOutcomes c1 (querySelectorAll w.doc tooltipSelector) w))).map
          (fun e => [Value.element e.id]) ∧
    (∀ c ∈ passCalls (Env.withTooltip c1) w, ∃ e ∈ marked w.doc, c = [Value.element e.id]) ∧
    (c1.NeverThrows →
      passCalls (Env.withTooltip c1) w = (marked w.doc).map (fun e => [Value.element e.id]) ∧
      ∀ e ∈ marked w.doc, [Value.element e.id] ∈ passCalls (Env.withTooltip c1) w) ∧
    (reached (ctorOutcomes c1 (querySelectorAll w.doc tooltipSelector) w)
        = reached (ctorOutcomes c2 (querySelectorAll w.doc tooltipSelector) w) →
      passCalls (Env.withTooltip c1) w = passCalls (Env.withTooltip c2) w) ∧
    (c1.NeverThrows → c2.NeverThrows →
      passCalls (Env.withTooltip c1) w = passCalls (Env.withTooltip c2) w) := by
  refine ⟨passCalls_reached c1 w, ?_, ?_, ?_, ?_⟩
  · intro c hc
    rw [passCalls_reached] at hc
    obtain ⟨e, he, rfl⟩ := List.mem_map.1 hc
    exact ⟨e, List.mem_of_mem_take he, rfl⟩
  · intro h1
    refine ⟨passCalls_neverThrows c1 h1 w, ?_⟩
    intro e he
    rw [passCalls_neverThrows c1 h1 w]
    exact List.mem_map.2 ⟨e, he, rfl⟩
  · intro hr
    rw [passCalls_reached c1 w, passCalls_reached c2 w, hr]
  · intro h1 h2
    rw [passCalls_neverThrows c1 h1 w, passCalls_neverThrows c2 h2 w]

/-- Witness for the amended C10: on the sample page a constructor that inserts
the marked button 10 and removes the matched element 5 during the pass makes
the same calls as one that leaves the document alone: 2, 4 and 5, and none for
10, although afterwards 10 is in the document and matched and 5 is not. -/
theorem handler_calls_fixed_at_query_time_witness :
    passCalls (Env.withTooltip mutatingCtor) ⟨sampleDoc, []⟩
      = passCalls (Env.withTooltip plainCtor) ⟨sampleDoc, []⟩ ∧
    passCalls (Env.withTooltip mutatingCtor) ⟨sampleDoc, []⟩
      = [[Value.element 2], [Value.element 4], [Value.element 5]] ∧
    querySelectorAll (handler (Env.withTooltip mutatingCtor) ⟨sampleDoc, []⟩).2.doc tooltipSelector
      = [Value.element 2, Value.element 4, Value.element 10] :=
  ⟨(handler_calls_fixed_at_query_time mutatingCtor plainCtor ⟨sampleDoc, []⟩).2.2.2.2
      (fun _ _ => ⟨_, rfl⟩) plainCtor_neverThrows,
    ((handler_calls_fixed_at_query_time mutatingCtor plainCtor ⟨sampleDoc, []⟩).2.2.1
      (fun _ _ => ⟨_, rfl⟩)).1, by decide⟩

/-! ## Claims about the page: registration, firing, later mutation -/

theorem dispatchListeners_other (env : Env) (ty : String) :
    ∀ (ls : List Listener) (w : World) (errs : List Thrown),
      (∀ l ∈ ls, l.type ≠ ty) → dispatchListeners env ty ls w errs = (w, errs) := by
  intro ls
  induction ls with
  | nil => intro w errs _; rfl
  | cons l ls ih =>
    intro w errs h
    have hl : l.type ≠ ty := h l (List.mem_cons_self _ _)
    simp only [dispatchListeners, hl, if_false]
    exact ih w errs (fun l' hl' => h l' (List.mem_cons_of_mem _ hl'))

theorem dispatch_load_single (env : Env) (p : Page)
    (h : p.listeners = [⟨"DOMContentLoaded", .initTooltips⟩]) :
    (dispatch env "DOMContentLoaded" p).world = (handler env p.world).2 ∧
    (dispatch env "DOMContentLoaded" p).listeners = p.listeners := by
  refine ⟨?_, rfl⟩
  rcases hh : handler env p.world with ⟨o, w'⟩
  cases o <;> simp [dispatch, h, dispatchListeners, Callback.invoke, hh]

/-- A step other than the load signal leaves listeners and call trace alone, on
a page whose listeners are all for the load signal. -/
theorem step_not_load (env : Env) (p : Page) (s : Step)
    (hl : ∀ l ∈ p.listeners, l.type = "DOMContentLoaded") (hs : s.isLoad = false) :
    (step env p s).listeners = p.listeners ∧ (step env p s).world.calls = p.world.calls := by
  cases s with
  | fire ty =>
    have hty : ty ≠ "DOMContentLoaded" := by simpa [Step.isLoad] using hs
    have hd := dispatchListeners_other env ty p.listeners p.world p.uncaught
      (fun l hmem heq => hty (by rw [← heq, hl l hmem]))
    simp [step, dispatch, hd]
  | insert parent n => exact ⟨rfl, rfl⟩
  | remove target => exact ⟨rfl, rfl⟩

theorem run_not_load (env : Env) :
    ∀ (steps : List Step) (p : Page),
      (∀ l ∈ p.listeners, l.type = "DOMContentLoaded") →
      (∀ s ∈ steps, s.isLoad = false) →
      (run env p steps).listeners = p.listeners ∧
      (run env p steps).world.calls = p.world.calls := by
  intro steps
  induction steps with
  | nil => intro p _ _; exact ⟨rfl, rfl⟩
  | cons s steps ih =>
    intro p hl hs
    have h1 := step_not_load env p s hl (hs s (List.mem_cons_self _ _))
    have h2 := ih (step env p s) (by rw [h1.1]; exact hl)
      (fun s' hs' => hs s' (List.mem_cons_of_mem _ hs'))
    show (run env (step env p s) steps).listeners = p.listeners ∧
      (run env (step env p s) steps).world.calls = p.world.calls
    rw [h2.1, h2.2, h1.1, h1.2]
    exact ⟨rfl, rfl⟩

theorem run_append (env : Env) (p : Page) (s1 s2 : List Step) :
    run env p (s1 ++ s2) = run env (run env p s1) s2 := by
  simp [run, List.foldl_append]

theorem loadedPage_spec (env : Env) (d : Document) :
    (loadedPage env d).listeners = [⟨"DOMContentLoaded", .initTooltips⟩] ∧
    (loadedPage env d).world.calls = passCalls env ⟨d, []⟩ := by
  have h := dispatch_load_single env (runScript (Page.fresh d)) rfl
  refine ⟨h.2, ?_⟩
  show (dispatch env "DOMContentLoaded" (runScript (Page.fresh d))).world.calls = _
  rw [h.1]
  simp [passCalls, runScript, Page.fresh]

/-- C6: after the script was evaluated and the load signal fired once, no step
other than a load signal (insertions of nodes, marked or not, removals, other
events) ever adds a constructor call: the call trace stays what it was right
after the load pass, so an element that was not in the document at load time
never appears as a constructor argument. -/
theorem no_constructor_call_after_load (env : Env) (d : Document) (steps : List Step)
    (hsteps : ∀ s ∈ steps, s.isLoad = false) :
    (run env (loadedPage env d) steps).world.calls = (loadedPage env d).world.calls ∧
    (∀ id, (∀ e ∈ d.elements, e.id ≠ id) →
      ∀ c ∈ (run env (loadedPage env d) steps).world.calls, Value.element id ∉ c) := by
  have hl := loadedPage_spec env d
  have hrun := run_not_load env steps (loadedPage env d)
    (by rw [hl.1]; intro l hmem; simp at hmem; rw [hmem]) hsteps
  refine ⟨hrun.2, ?_⟩
  intro id hid c hc
  rw [hrun.2, hl.2] at hc
  obtain ⟨n, _, hp⟩ := passCalls_take env ⟨d, []⟩
  rw [hp] at hc
  obtain ⟨e, he, rfl⟩ := List.mem_map.1 hc
  have hmem : e ∈ d.elements := (mem_marked.1 (List.mem_of_mem_take he)).1
  intro hin
  have : id = e.id := by simpa using hin
  exact hid e hmem this.symm

/-- Witness for C6: after the load pass on the sample page a marked button 10
is inserted; it is in the document and matches the selector, yet the calls are
still those for 2, 4 and 5. -/
theorem no_constructor_call_after_load_witness :
    (run (Env.withTooltip plainCtor) (loadedPage (Env.withTooltip plainCtor) sampleDoc)
        [.insert 1 (sampleButton 10 "tooltip"), .fire "click", .remove 2]).world.calls
      = [[Value.element 2], [Value.element 4], [Value.element 5]] ∧
    querySelectorAll
        (run (Env.withTooltip plainCtor) (loadedPage (Env.withTooltip plainCtor) sampleDoc)
          [.insert 1 (sampleButton 10 "tooltip"), .fire "click", .remove 2]).world.doc
        tooltipSelector
      = [Value.element 4, Value.element 5, Value.element 10] :=
  ⟨(no_constructor_call_after_load (Env.withTooltip plainCtor) sampleDoc
      [.insert 1 (sampleButton 10 "tooltip"), .fire "click", .remove 2] (by decide)).1,
    by decide⟩

/-- C9: evaluating the script appends exactly one listener, for
`DOMContentLoaded`, and touches neither the document nor the call trace; on a
page holding that listener each firing of the load signal performs one pass of
the listener body on the world as it then is, and leaves the listener in place;
without a load signal no constructor call is ever made; with a single load
signal the calls are those of exactly one pass over the document as it is when
the signal fires. -/
theorem script_runs_once_per_load_signal (env : Env) (p : Page) (d : Document) :
    (runScript p).listeners = p.listeners ++ [⟨"DOMContentLoaded", .initTooltips⟩] ∧
    (runScript p).world = p.world ∧
    (runScript p).uncaught = p.uncaught ∧
    (∀ q : Page, q.listeners = [⟨"DOMContentLoaded", .initTooltips⟩] →
      (step env q (.fire "DOMContentLoaded")).world = (handler env q.world).2 ∧
      (step env q (.fire "DOMContentLoaded")).listeners = q.listeners) ∧
    (∀ steps : List Step, (∀ s ∈ steps, s.isLoad = false) →
      (run env (runScript (Page.fresh d)) steps).world.calls = []) ∧
    (∀ pre post : List Step, (∀ s ∈ pre, s.isLoad = false) → (∀ s ∈ post, s.isLoad = false) →
      (run env (runScript (Page.fresh d)) (pre ++ [.fire "DOMContentLoaded"] ++ post)).world.calls
        = passCalls env (run env (runScript (Page.fresh d)) pre).world) := by
  have hfresh : ∀ l ∈ (runScript (Page.fresh d)).listeners, l.type = "DOMContentLoaded" := by
    intro l hmem
    have : l = ⟨"DOMContentLoaded", .initTooltips⟩ := by simpa [runScript, Page.fresh] using hmem
    rw [this]
  refine ⟨rfl, rfl, rfl, fun q hq => dispatch_load_single env q hq, ?_, ?_⟩
  · intro steps hs
    exact (run_not_load env steps _ hfresh hs).2
  · intro pre post hpre hpost
    have h1 := run_not_load env pre _ hfresh hpre
    have hl1 : (run env (runScript (Page.fresh d)) pre).listeners
        = [⟨"DOMContentLoaded", .initTooltips⟩] := h1.1
    have h2 := dispatch_load_single env (run env (runScript (Page.fresh d)) pre) hl1
    have h3 := run_not_load env post
      (step env (run env (runScript (Page.fresh d)) pre) (.fire "DOMContentLoaded"))
      (by
        show ∀ l ∈ (dispatch env "DOMContentLoaded" _).listeners, _
        rw [h2.2, hl1]
        intro l hmem
        simp at hmem
        rw [hmem]) hpost
    rw [run_append, run_append]
    show (run env (step env (run env (runScript (Page.fresh d)) pre)
      (.fire "DOMContentLoaded")) post).world.calls = _
    rw [h3.2]
    show (dispatch env "DOMContentLoaded" _).world.calls = _
    rw [h2.1, handler_calls_eq, h1.2]
    rfl

/-- Witness for C9: on the sample page, a click and an insertion before the
load signal and a removal after it; the calls are those of one pass over the
document as it was when the signal fired (2, 10, 4, 5 in document order). -/
theorem script_runs_once_per_load_signal_witness :
    (run (Env.withTooltip plainCtor) (runScript (Page.fresh sampleDoc))
        ([.fire "click", .insert 2 (sampleButton 10 "tooltip")]
          ++ [.fire "DOMContentLoaded"] ++ [.remove 4])).world.calls
      = passCalls (Env.withTooltip plainCtor)
          (run (Env.withTooltip plainCtor) (runScript (Page.fresh sampleDoc))
            [.fire "click", .insert 2 (sampleButton 10 "tooltip")]).world ∧
    (run (Env.withTooltip plainCtor) (runScript (Page.fresh sampleDoc))
        ([.fire "click", .insert 2 (sampleButton 10 "tooltip")]
          ++ [.fire "DOMContentLoaded"] ++ [.remove 4])).world.calls
      = [[Value.element 2], [Value.element 10], [Value.element 4], [Value.element 5]] :=
  ⟨(script_runs_once_per_load_signal (Env.withTooltip plainCtor)
      (Page.fresh sampleDoc) sampleDoc).2.2.2.2.2
      [.fire "click", .insert 2 (sampleButton 10 "tooltip")] [.remove 4]
      (by decide) (by decide), by decide⟩

/-! ## The marker attribute -/

/-- C7 as stated fails: on a page with a popover trigger (3), an element with an
empty `data-bs-toggle` (7) and a tooltip trigger (8), it is not the case that
an element gets a constructor call exactly when it bears the attribute. -/
theorem any_toggle_value_is_host_fails :
    ¬ (∀ e ∈ popoverDoc.elements,
        ([Value.element e.id] ∈ passCalls (Env.withTooltip plainCtor) ⟨popoverDoc, []⟩
          ↔ e.hasAttribute "data-bs-toggle" = true)) := by
  intro h
  have h3 := (h ⟨3, "button", [⟨"class", "btn"⟩, ⟨"data-bs-toggle", "popover"⟩]⟩
    (by decide)).2 (by decide)
  revert h3
  decide

/-- C7 amended: with a constructor that never throws and elements that are
distinct objects, an element present at load time gets a constructor call if
and only if it bears `data-bs-toggle` with the value exactly `tooltip`. -/
theorem widget_iff_toggle_is_tooltip (ctor : Ctor) (w : World)
    (hctor : ctor.NeverThrows) (hids : w.doc.DistinctIds) :
    ∀ e ∈ w.doc.elements,
      ([Value.element e.id] ∈ passCalls (Env.withTooltip ctor) w
        ↔ e.getAttribute "data-bs-toggle" = some "tooltip") := by
  intro e he
  rw [passCalls_neverThrows ctor hctor w, ← matches_tooltip_iff]
  constructor
  · intro hmem
    obtain ⟨a, ha, hae⟩ := List.mem_map.1 hmem
    have hid : a.id = e.id := by simpa using hae
    have := List.inj_on_of_nodup_map hids (mem_marked.1 ha).1 he hid
    exact this ▸ (mem_marked.1 ha).2
  · intro hm
    exact List.mem_map.2 ⟨e, mem_marked.2 ⟨he, hm⟩, rfl⟩

/-- Witness for the amended C7: on the popover page only element 8 gets a
call; the popover trigger 3 and the empty-valued 7 get none. -/
theorem widget_iff_toggle_is_tooltip_witness :
    ([Value.element 8] ∈ passCalls (Env.withTooltip plainCtor) ⟨popoverDoc, []⟩
      ↔ Element.getAttribute ⟨8, "button", [⟨"class", "btn"⟩, ⟨"data-bs-toggle", "tooltip"⟩]⟩
          "data-bs-toggle" = some "tooltip") ∧
    ([Value.element 7] ∈ passCalls (Env.withTooltip plainCtor) ⟨popoverDoc, []⟩
      ↔ Element.getAttribute ⟨7, "a", [⟨"data-bs-toggle", ""⟩]⟩
          "data-bs-toggle" = some "tooltip") ∧
    passCalls (Env.withTooltip plainCtor) ⟨popoverDoc, []⟩ = [[Value.element 8]] :=
  ⟨widget_iff_toggle_is_tooltip plainCtor ⟨popoverDoc, []⟩ plainCtor_neverThrows
      (by unfold Document.DistinctIds; decide)
      ⟨8, "button", [⟨"class", "btn"⟩, ⟨"data-bs-toggle", "tooltip"⟩]⟩ (by decide),
    widget_iff_toggle_is_tooltip plainCtor ⟨popoverDoc, []⟩ plainCtor_neverThrows
      (by unfold Document.DistinctIds; decide)
      ⟨7, "a", [⟨"data-bs-toggle", ""⟩]⟩ (by decide),
    by decide⟩

end TooltipApp
